import Mathlib

/-!
A verification development for a small license server (`src/license-server.js`).

The server keeps a single JSON document of customer records; each record
carries a license key, a status (`active`/`expired`/`banned`), an expiry
timestamp, a device cap (`maxDevices`) and a list of device activations.
The HTTP handlers (issue, list, renew, ban, activate, verify) are all
fully synchronous: each one reads the document, decides, optionally writes
the document back, and returns.  We embed each handler as a pure function
from the persisted document (plus the request parameters and the current
time) to the new persisted document and the response.

Timestamps: the server stores ISO-8601 UTC strings and converts through
JavaScript `Date`, whose semantics ECMA-262 defines over an integer count
of milliseconds since the epoch.  ISO strings round-trip exactly with that
integer, so we model every timestamp directly as the integer millisecond
count.  ECMA-262's `floor` division and modulo by the positive constants
used here agree with Lean's `Int` division `/` (Euclidean) and `%`, since
a Euclidean quotient by a positive divisor is the floor quotient.

JavaScript values appearing in request bodies are modelled by `JVal`
(numbers restricted to integers, which covers every value the spec and
claims discuss, plus strings); an absent field is `Option.none`.
-/

namespace LicenseServer

/-! ## ECMAScript Date arithmetic (UTC), after ECMA-262 §21.4.1 -/

def msPerDay : Int := 86400000

/-- ECMA `Day(t)`. -/
def epochDay (t : Int) : Int := t / msPerDay

/-- ECMA `TimeWithinDay(t)`. -/
def timeWithinDay (t : Int) : Int := t % msPerDay

/-- ECMA `DaysInYear(y)`. -/
def daysInYear (y : Int) : Int :=
  if y % 4 ≠ 0 then 365
  else if y % 100 ≠ 0 then 366
  else if y % 400 ≠ 0 then 365
  else 366

/-- ECMA `DayFromYear(y)`. -/
def dayFromYear (y : Int) : Int :=
  365 * (y - 1970) + (y - 1969) / 4 - (y - 1901) / 100 + (y - 1601) / 400

/-- ECMA `YearFromTime` at day granularity: the largest year `y` with
`dayFromYear y ≤ d`, computed from a first-order approximation corrected
by at most one in either direction (`yearFromDay_spec` below proves the
characterisation). -/
def yearFromDay (d : Int) : Int :=
  if dayFromYear (1970 + 400 * d / 146097 + 1) ≤ d then 1970 + 400 * d / 146097 + 1
  else if dayFromYear (1970 + 400 * d / 146097) ≤ d then 1970 + 400 * d / 146097
  else 1970 + 400 * d / 146097 - 1

def yearFromTime (t : Int) : Int := yearFromDay (epochDay t)

/-- ECMA `InLeapYear(t)`, as the 0/1 integer the month tables add. -/
def leapOf (y : Int) : Int := if daysInYear y = 366 then 1 else 0

/-- Cumulative days before month `m` (0 = January) in a year with
`ily ∈ {0, 1}` leap days; `m ≥ 12` gives the full year length. -/
def cumDays (ily : Int) (m : Int) : Int :=
  if m ≤ 0 then 0
  else if m = 1 then 31
  else if m = 2 then 59 + ily
  else if m = 3 then 90 + ily
  else if m = 4 then 120 + ily
  else if m = 5 then 151 + ily
  else if m = 6 then 181 + ily
  else if m = 7 then 212 + ily
  else if m = 8 then 243 + ily
  else if m = 9 then 273 + ily
  else if m = 10 then 304 + ily
  else if m = 11 then 334 + ily
  else 365 + ily

/-- ECMA `DayWithinYear(t)`. -/
def dayWithinYear (t : Int) : Int := epochDay t - dayFromYear (yearFromTime t)

/-- ECMA `MonthFromTime(t)`, as a function of the day within the year. -/
def monthFromDwy (ily : Int) (d : Int) : Int :=
  if d < 31 then 0
  else if d < 59 + ily then 1
  else if d < 90 + ily then 2
  else if d < 120 + ily then 3
  else if d < 151 + ily then 4
  else if d < 181 + ily then 5
  else if d < 212 + ily then 6
  else if d < 243 + ily then 7
  else if d < 273 + ily then 8
  else if d < 304 + ily then 9
  else if d < 334 + ily then 10
  else 11

def monthFromTime (t : Int) : Int :=
  monthFromDwy (leapOf (yearFromTime t)) (dayWithinYear t)

/-- ECMA `DateFromTime(t)` (1-based day of month). -/
def dateFromTime (t : Int) : Int :=
  dayWithinYear t - cumDays (leapOf (yearFromTime t)) (monthFromTime t) + 1

/-- ECMA `MakeDay(y, m, d)`: month overflow moves into adjacent years, and
a day count past the end of the target month spills into the following
month(s) — JavaScript `Date` does NOT clamp. -/
def makeDay (y m d : Int) : Int :=
  dayFromYear (y + m / 12) + cumDays (leapOf (y + m / 12)) (m % 12) + (d - 1)

/-- ECMA `MakeDate`. -/
def makeDate (day time : Int) : Int := day * msPerDay + time

/-- `addMonths(date, months)` from the source: `new Date(date)`,
`d.setMonth(d.getMonth() + months)`, `d.toISOString()`.  Per ECMA-262,
`setMonth` is `MakeDate(MakeDay(YearFromTime(t), newMonth, DateFromTime(t)),
TimeWithinDay(t))`. -/
def addMonths (t : Int) (months : Int) : Int :=
  makeDate (makeDay (yearFromTime t) (monthFromTime t + months) (dateFromTime t))
    (timeWithinDay t)

/-- `isExpired(iso)` from the source: `new Date(iso).getTime() <= Date.now()`. -/
def isExpired (expiresAt now : Int) : Bool := decide (expiresAt ≤ now)

/-- Length of month `m` (0-based) of a year with `ily` leap days. -/
def daysInMonth (ily m : Int) : Int := cumDays ily (m + 1) - cumDays ily m

/-- Modelled from the spec: `addInterval` resolving a nonexistent source
day-of-month by clamping "to last valid day of target month" (spec §4.2);
this is the policy the spec asserts, to be compared with the source's
`addMonths` above. -/
def addMonthsClamp (t : Int) (months : Int) : Int :=
  makeDate
    (dayFromYear (yearFromTime t + (monthFromTime t + months) / 12)
      + cumDays (leapOf (yearFromTime t + (monthFromTime t + months) / 12))
          ((monthFromTime t + months) % 12)
      + (min (dateFromTime t)
          (daysInMonth (leapOf (yearFromTime t + (monthFromTime t + months) / 12))
            ((monthFromTime t + months) % 12)) - 1))
    (timeWithinDay t)

/-! ## JavaScript request values -/

/-- A JSON/JavaScript value as it appears in a request body field; numbers
are restricted to integers (all quantities in scope are integral). -/
inductive JVal where
  | num (n : Int)
  | str (s : String)
deriving DecidableEq

/-- JavaScript `Number(v)`: `none` models `NaN` (a non-numeric string). -/
def jsToNumber : JVal → Option Int
  | .num n => some n
  | .str s => s.toInt?

/-- `Number(v) || dflt` applied to an optional field that destructures with
default `dflt`: absent, `NaN` and `0` all fall back to the default. -/
def numberOr (v : Option JVal) (dflt : Int) : Int :=
  match v with
  | none => dflt
  | some w =>
    match jsToNumber w with
    | some n => if n = 0 then dflt else n
    | none => dflt

/-- JavaScript `a >= v` for a number `a` and an arbitrary value `v`:
`v` is coerced with `ToNumber`; a comparison against `NaN` is `false`. -/
def jsGE (a : Int) (v : JVal) : Bool :=
  match jsToNumber v with
  | some n => decide (n ≤ a)
  | none => false

/-! ## Data model -/

inductive Status where
  | active
  | expired
  | banned
deriving DecidableEq

structure Activation where
  deviceId : String
  activatedAt : Int
  lastSeen : Int
deriving DecidableEq

structure Customer where
  id : String
  name : String
  email : String
  licenseKey : String
  status : Status
  maxDevices : JVal
  createdAt : Int
  expiresAt : Int
  activations : List Activation
deriving DecidableEq

structure Db where
  customers : List Customer
deriving DecidableEq

/-- The persisted file: parsed content, a missing file, or unparseable
content. -/
inductive ReadOutcome where
  | ok (db : Db)
  | fileMissing
  | parseError
deriving DecidableEq

/-- `readData()`: `JSON.parse(readFileSync(...))` with
`catch (e) { return { customers: [] } }`; a missing file also throws into
the same catch. -/
def readData : ReadOutcome → Db
  | .ok db => db
  | .fileMissing => ⟨[]⟩
  | .parseError => ⟨[]⟩

/-! ## State machine (per-record level) -/

inductive ActResult where
  | validationError
  | invalid
  | banned
  | expired (expiresAt : Int)
  | limitExceeded (maxDevices : JVal)
  | success (expiresAt : Int) (deviceId : String) (customerName : String)
deriving DecidableEq

inductive VerifyResult where
  | validationError
  | invalid
  | notActivated
  | ok (status : Status) (expiresAt : Int)
deriving DecidableEq

/-- In-place mutation `existing.lastSeen = now` of the first activation
`find` returned. -/
def bumpLastSeen (deviceId : String) (now : Int) : List Activation → List Activation
  | [] => []
  | a :: as =>
    if a.deviceId == deviceId then { a with lastSeen := now } :: as
    else a :: bumpLastSeen deviceId now as

/-- The activate handler's body once the record `c` has been found
(source lines 108–125). -/
def activateCustomer (c : Customer) (now : Int) (deviceId : String) :
    Customer × ActResult :=
  if c.status = .banned then (c, .banned)
  else if isExpired c.expiresAt now then
    ({ c with status := .expired }, .expired c.expiresAt)
  else
    match c.activations.find? (fun a => a.deviceId == deviceId) with
    | none =>
      if jsGE (c.activations.length : Int) c.maxDevices then
        (c, .limitExceeded c.maxDevices)
      else
        ({ c with
            activations :=
              c.activations ++ [{ deviceId := deviceId, activatedAt := now, lastSeen := now }],
            status := .active },
          .success c.expiresAt deviceId c.name)
    | some _ =>
      ({ c with activations := bumpLastSeen deviceId now c.activations, status := .active },
        .success c.expiresAt deviceId c.name)

/-- The verify handler's body once the record `c` has been found
(source lines 136–143). -/
def verifyCustomer (c : Customer) (now : Int) (deviceId : String) :
    Customer × VerifyResult :=
  match c.activations.find? (fun a => a.deviceId == deviceId) with
  | none => (c, .notActivated)
  | some _ =>
    let newStatus :=
      if c.status = .banned then Status.banned
      else if isExpired c.expiresAt now then Status.expired
      else Status.active
    ({ c with activations := bumpLastSeen deviceId now c.activations, status := newStatus },
      .ok newStatus c.expiresAt)

/-- The renew handler's body once the record `c` has been found, with the
months count already coerced (source lines 84–85). -/
def renewCustomer (c : Customer) (now : Int) (months : Int) : Customer :=
  let baseDate := if isExpired c.expiresAt now then now else c.expiresAt
  { c with expiresAt := addMonths baseDate months }

/-- The ban handler's body once the record `c` has been found
(source line 96). -/
def banCustomer (c : Customer) (now : Int) (banned : Bool) : Customer :=
  { c with
      status :=
        if banned then Status.banned
        else if isExpired c.expiresAt now then Status.expired
        else Status.active }

/-- The record built by the issue handler (source lines 56–66); `id` and
`key` stand for the two freshly generated random tokens.  Note `months`
passes through `Number(months) || 6` while `maxDevices` is stored exactly
as supplied (defaulting to `2` only when the field is absent). -/
def issueCustomer (now : Int) (name email : String) (months maxDevices : Option JVal)
    (id key : String) : Customer :=
  { id := id
    name := name
    email := email
    licenseKey := key
    status := .active
    maxDevices := maxDevices.getD (.num 2)
    createdAt := now
    expiresAt := addMonths now (numberOr months 6)
    activations := [] }

/-- Modelled from the spec: the stored `maxDevices` the spec describes —
"coerced to their numeric form with fallback to the default on parse
failure", default 2 (spec §4.3 Issue); to be compared with what
`issueCustomer` stores. -/
def specMaxDevices (v : Option JVal) : JVal := .num (numberOr v 2)

/-! ## Handlers over the persisted document -/

/-- Replace the first element satisfying `p` (the element JavaScript's
`find` returned and the handler mutated in place). -/
def updateFirst (p : Customer → Bool) (f : Customer → Customer) :
    List Customer → List Customer
  | [] => []
  | c :: cs => if p c then f c :: cs else c :: updateFirst p f cs

/-- Which activate outcomes reach a `writeData` call in the source. -/
def activateWrites : ActResult → Bool
  | .expired _ => true
  | .success _ _ _ => true
  | _ => false

/-- `POST /api/licenses/activate`.  The result is the new persisted file
state and the response; paths that return before `writeData` leave the
file exactly as it was (even unparseable). -/
def activateDb (raw : ReadOutcome) (now : Int) (licenseKey deviceId : String) :
    ReadOutcome × ActResult :=
  if licenseKey = "" ∨ deviceId = "" then (raw, .validationError)
  else
    let db := readData raw
    match db.customers.find? (fun x => x.licenseKey == licenseKey) with
    | none => (raw, .invalid)
    | some c =>
      let (c', r) := activateCustomer c now deviceId
      if activateWrites r then
        (.ok ⟨updateFirst (fun x => x.licenseKey == licenseKey) (fun _ => c') db.customers⟩, r)
      else (raw, r)

/-- `GET /api/licenses/verify`. -/
def verifyDb (raw : ReadOutcome) (now : Int) (licenseKey deviceId : String) :
    ReadOutcome × VerifyResult :=
  if licenseKey = "" ∨ deviceId = "" then (raw, .validationError)
  else
    let db := readData raw
    match db.customers.find? (fun x => x.licenseKey == licenseKey) with
    | none => (raw, .invalid)
    | some c =>
      let (c', r) := verifyCustomer c now deviceId
      match r with
      | .notActivated => (raw, .notActivated)
      | _ =>
        (.ok ⟨updateFirst (fun x => x.licenseKey == licenseKey) (fun _ => c') db.customers⟩, r)

/-- `PUT /api/customers/:id/renew`; `none` is the 404 NotFound response. -/
def renewDb (raw : ReadOutcome) (now : Int) (id : String) (months : Option JVal) :
    ReadOutcome × Option Customer :=
  let db := readData raw
  match db.customers.find? (fun x => x.id == id) with
  | none => (raw, none)
  | some c =>
    let c' := renewCustomer c now (numberOr months 3)
    (.ok ⟨updateFirst (fun x => x.id == id) (fun _ => c') db.customers⟩, some c')

/-- `PUT /api/customers/:id/ban`; the body's `banned` field defaults to
`true`. -/
def banDb (raw : ReadOutcome) (now : Int) (id : String) (banned : Option Bool) :
    ReadOutcome × Option Customer :=
  let db := readData raw
  match db.customers.find? (fun x => x.id == id) with
  | none => (raw, none)
  | some c =>
    let c' := banCustomer c now (banned.getD true)
    (.ok ⟨updateFirst (fun x => x.id == id) (fun _ => c') db.customers⟩, some c')

/-- `POST /api/customers`; `none` is the 400 validation response. -/
def issueDb (raw : ReadOutcome) (now : Int) (name email : String)
    (months maxDevices : Option JVal) (id key : String) :
    ReadOutcome × Option Customer :=
  if name = "" ∨ email = "" then (raw, none)
  else
    let db := readData raw
    let c := issueCustomer now name email months maxDevices id key
    (.ok ⟨db.customers ++ [c]⟩, some c)

/-- `GET /api/customers`. -/
def listDb (raw : ReadOutcome) : List Customer := (readData raw).customers

/-- A sequence of activate requests, applied in arrival order.  Every
handler body is synchronous (no `await`, only `readFileSync` /
`writeFileSync`), so under Node's run-to-completion event loop concurrent
requests execute as some sequential interleaving of whole handler
bodies; a list of calls in an arbitrary order models exactly that. -/
def runActs : Customer → List (String × Int) → Customer × List ActResult
  | c, [] => (c, [])
  | c, (d, t) :: rest =>
    ((runActs (activateCustomer c t d).1 rest).1,
      (activateCustomer c t d).2 :: (runActs (activateCustomer c t d).1 rest).2)

def isSuccessR : ActResult → Bool
  | .success _ _ _ => true
  | _ => false

/-- A concrete record used by witnesses and counterexamples: an active
license expiring 2025-06-15T00:00Z with a cap of 2 devices. -/
def sampleCustomer : Customer :=
  { id := "c1"
    name := "A"
    email := "a@x"
    licenseKey := "k"
    status := .active
    maxDevices := .num 2
    createdAt := 0
    expiresAt := makeDay 2025 5 15 * msPerDay
    activations := [] }

/-! ## Calendar lemmas -/

theorem dayFromYear_succ (y : Int) :
    dayFromYear (y + 1) = dayFromYear y + daysInYear y := by
  unfold dayFromYear daysInYear
  split_ifs <;> omega

theorem daysInYear_eq_365_add_leapOf (y : Int) :
    daysInYear y = 365 + leapOf y := by
  unfold leapOf daysInYear
  split_ifs <;> omega

theorem leapOf_bounds (y : Int) : 0 ≤ leapOf y ∧ leapOf y ≤ 1 := by
  unfold leapOf
  split_ifs <;> omega

theorem dayFromYear_approx_lb (d : Int) :
    dayFromYear (1970 + 400 * d / 146097 - 1) ≤ d := by
  unfold dayFromYear
  omega

theorem dayFromYear_approx_ub (d : Int) :
    d < dayFromYear (1970 + 400 * d / 146097 + 2) := by
  unfold dayFromYear
  omega

theorem yearFromDay_spec (d : Int) :
    dayFromYear (yearFromDay d) ≤ d ∧ d < dayFromYear (yearFromDay d + 1) := by
  have hlb := dayFromYear_approx_lb d
  have hub := dayFromYear_approx_ub d
  unfold yearFromDay
  split_ifs with h1 h2
  · refine ⟨h1, ?_⟩
    rw [show 1970 + 400 * d / 146097 + 1 + 1 = 1970 + 400 * d / 146097 + 2 from by ring]
    exact hub
  · exact ⟨h2, by omega⟩
  · refine ⟨hlb, ?_⟩
    rw [show 1970 + 400 * d / 146097 - 1 + 1 = 1970 + 400 * d / 146097 from by ring]
    omega

theorem dayWithinYear_bounds (t : Int) :
    0 ≤ dayWithinYear t ∧ dayWithinYear t < daysInYear (yearFromTime t) := by
  have h := yearFromDay_spec (epochDay t)
  have h2 := dayFromYear_succ (yearFromDay (epochDay t))
  unfold dayWithinYear yearFromTime
  omega

theorem cumDays_table (ily : Int) :
    cumDays ily 0 = 0 ∧ cumDays ily 1 = 31 ∧ cumDays ily 2 = 59 + ily ∧
      cumDays ily 3 = 90 + ily ∧ cumDays ily 4 = 120 + ily ∧ cumDays ily 5 = 151 + ily ∧
      cumDays ily 6 = 181 + ily ∧ cumDays ily 7 = 212 + ily ∧ cumDays ily 8 = 243 + ily ∧
      cumDays ily 9 = 273 + ily ∧ cumDays ily 10 = 304 + ily ∧ cumDays ily 11 = 334 + ily ∧
      cumDays ily 12 = 365 + ily := by
  norm_num [cumDays]

theorem monthFromDwy_range (ily d : Int) :
    0 ≤ monthFromDwy ily d ∧ monthFromDwy ily d ≤ 11 := by
  unfold monthFromDwy
  rcases lt_or_le d 31 with c0 | c0
  · rw [if_pos c0]; omega
  rw [if_neg (not_lt.mpr c0)]
  rcases lt_or_le d (59 + ily) with c1 | c1
  · rw [if_pos c1]; omega
  rw [if_neg (not_lt.mpr c1)]
  rcases lt_or_le d (90 + ily) with c2 | c2
  · rw [if_pos c2]; omega
  rw [if_neg (not_lt.mpr c2)]
  rcases lt_or_le d (120 + ily) with c3 | c3
  · rw [if_pos c3]; omega
  rw [if_neg (not_lt.mpr c3)]
  rcases lt_or_le d (151 + ily) with c4 | c4
  · rw [if_pos c4]; omega
  rw [if_neg (not_lt.mpr c4)]
  rcases lt_or_le d (181 + ily) with c5 | c5
  · rw [if_pos c5]; omega
  rw [if_neg (not_lt.mpr c5)]
  rcases lt_or_le d (212 + ily) with c6 | c6
  · rw [if_pos c6]; omega
  rw [if_neg (not_lt.mpr c6)]
  rcases lt_or_le d (243 + ily) with c7 | c7
  · rw [if_pos c7]; omega
  rw [if_neg (not_lt.mpr c7)]
  rcases lt_or_le d (273 + ily) with c8 | c8
  · rw [if_pos c8]; omega
  rw [if_neg (not_lt.mpr c8)]
  rcases lt_or_le d (304 + ily) with c9 | c9
  · rw [if_pos c9]; omega
  rw [if_neg (not_lt.mpr c9)]
  rcases lt_or_le d (334 + ily) with c10 | c10
  · rw [if_pos c10]; omega
  rw [if_neg (not_lt.mpr c10)]
  omega

theorem monthFromTime_range (t : Int) :
    0 ≤ monthFromTime t ∧ monthFromTime t ≤ 11 := by
  unfold monthFromTime
  exact monthFromDwy_range _ _

theorem makeDay_roundtrip (t : Int) :
    makeDay (yearFromTime t) (monthFromTime t) (dateFromTime t) = epochDay t := by
  obtain ⟨hm0, hm11⟩ := monthFromTime_range t
  have hdiv : monthFromTime t / 12 = 0 := by omega
  have hmod : monthFromTime t % 12 = monthFromTime t := by omega
  have hmk : makeDay (yearFromTime t) (monthFromTime t) (dateFromTime t)
      = dayFromYear (yearFromTime t + monthFromTime t / 12)
        + cumDays (leapOf (yearFromTime t + monthFromTime t / 12)) (monthFromTime t % 12)
        + (dateFromTime t - 1) := rfl
  have hdt : dateFromTime t
      = dayWithinYear t - cumDays (leapOf (yearFromTime t)) (monthFromTime t) + 1 := rfl
  have hdw : dayWithinYear t = epochDay t - dayFromYear (yearFromTime t) := rfl
  rw [hmk, hdiv, hmod, add_zero, hdt, hdw]
  ring

theorem firstDay_roll (q : Int) :
    dayFromYear q + cumDays (leapOf q) 11 + 31
      = dayFromYear (q + 1) + cumDays (leapOf (q + 1)) 0 := by
  have h := dayFromYear_succ q
  have h2 := daysInYear_eq_365_add_leapOf q
  have h3 := cumDays_table (leapOf q)
  have h4 := cumDays_table (leapOf (q + 1))
  omega

theorem firstDay_step (q r : Int) (hr0 : 0 ≤ r) (hr : r < 11) :
    dayFromYear q + cumDays (leapOf q) r + 28
      ≤ dayFromYear q + cumDays (leapOf q) (r + 1) := by
  have hl := leapOf_bounds q
  have h := cumDays_table (leapOf q)
  interval_cases r <;> norm_num <;> omega

theorem makeDay_first_succ (y m : Int) :
    makeDay y m 1 + 28 ≤ makeDay y (m + 1) 1 := by
  unfold makeDay
  rcases eq_or_ne (m % 12) 11 with hc | hc
  · have hq : (m + 1) / 12 = m / 12 + 1 := by omega
    have hr : (m + 1) % 12 = 0 := by omega
    rw [hq, hr, hc, show y + (m / 12 + 1) = y + m / 12 + 1 from by ring]
    have h := firstDay_roll (y + m / 12)
    omega
  · have hq : (m + 1) / 12 = m / 12 := by omega
    have hr : (m + 1) % 12 = m % 12 + 1 := by omega
    rw [hq, hr]
    have h := firstDay_step (y + m / 12) (m % 12) (by omega) (by omega)
    omega

theorem makeDay_first_le (y m : Int) (k : Nat) :
    makeDay y m 1 + 28 * k ≤ makeDay y (m + k) 1 := by
  induction k with
  | zero => simp
  | succ n ih =>
    have h := makeDay_first_succ y (m + n)
    have hcast : ((n + 1 : Nat) : Int) = (n : Int) + 1 := by push_cast; ring
    rw [hcast, show m + ((n : Int) + 1) = m + (n : Int) + 1 from by ring]
    omega

theorem makeDay_date_shift (y m d : Int) :
    makeDay y m d = makeDay y m 1 + (d - 1) := by
  unfold makeDay
  ring

theorem addMonths_mono (t months : Int) (h : 0 ≤ months) : t ≤ addMonths t months := by
  obtain ⟨k, rfl⟩ := Int.eq_ofNat_of_zero_le h
  have hrt := makeDay_roundtrip t
  have hstep := makeDay_first_le (yearFromTime t) (monthFromTime t) k
  have hs1 := makeDay_date_shift (yearFromTime t) (monthFromTime t) (dateFromTime t)
  have hs2 := makeDay_date_shift (yearFromTime t) (monthFromTime t + (k : Int)) (dateFromTime t)
  unfold addMonths makeDate
  unfold epochDay timeWithinDay msPerDay at *
  omega

/-! ## Claims C4 and C5: renewal and calendar-month arithmetic -/

/-- C5 (amended): `addMonths` performs calendar-month arithmetic, but when
the source day-of-month does not exist in the target month it does NOT
clamp: it deterministically overflows past the end of the target month by
exactly the excess days (JavaScript `Date` normalisation).  Equivalently,
the source result always equals the spec's clamping policy plus
`msPerDay` times the (nonnegative) excess of the source day-of-month over
the target month's length. -/
theorem addMonths_eq_clamp_add_overflow (t months : Int) :
    addMonths t months =
      addMonthsClamp t months +
        msPerDay * max 0 (dateFromTime t -
          daysInMonth (leapOf (yearFromTime t + (monthFromTime t + months) / 12))
            ((monthFromTime t + months) % 12)) := by
  unfold addMonths addMonthsClamp makeDay makeDate daysInMonth msPerDay
  omega

/-- C5 counterexample: adding one month to 2025-01-31T00:00Z yields
2025-03-03 (day overflow), not the clamped 2025-02-28 the claim asserts,
so `addMonths` and the spec's clamping `addInterval` differ at this
input. -/
theorem addMonths_clamp_counterexample :
    addMonths (makeDay 2025 0 31 * msPerDay) 1 = makeDay 2025 2 3 * msPerDay ∧
    addMonthsClamp (makeDay 2025 0 31 * msPerDay) 1 = makeDay 2025 1 28 * msPerDay ∧
    addMonths (makeDay 2025 0 31 * msPerDay) 1
      ≠ addMonthsClamp (makeDay 2025 0 31 * msPerDay) 1 := by
  refine ⟨by decide, by decide, by decide⟩

/-- C4 (amended): if the license is not currently expired, renewal bases
the new expiry on the existing `expiresAt` (not on `now`), and therefore
never decreases `expiresAt` provided the requested months value coerces
to a nonnegative number; if the license is currently expired, the new
expiry is based on the current time. -/
theorem renew_extends_from_expiry (c : Customer) (now : Int) (mv : Option JVal) :
    (isExpired c.expiresAt now = false →
      (renewCustomer c now (numberOr mv 3)).expiresAt
          = addMonths c.expiresAt (numberOr mv 3) ∧
        (0 ≤ numberOr mv 3 →
          c.expiresAt ≤ (renewCustomer c now (numberOr mv 3)).expiresAt)) ∧
    (isExpired c.expiresAt now = true →
      (renewCustomer c now (numberOr mv 3)).expiresAt
          = addMonths now (numberOr mv 3)) := by
  constructor
  · intro hne
    constructor
    · simp [renewCustomer, hne]
    · intro hm
      simp only [renewCustomer, hne, Bool.false_eq_true, if_false]
      exact addMonths_mono _ _ hm
  · intro he
    simp [renewCustomer, he]

/-- C4 witness: renewing the sample license (expiring 2025-06-15, not
expired at time 0) by one month does not decrease its expiry. -/
theorem renew_extends_witness :
    sampleCustomer.expiresAt
      ≤ (renewCustomer sampleCustomer 0 (numberOr (some (JVal.num 1)) 3)).expiresAt :=
  ((renew_extends_from_expiry sampleCustomer 0 (some (JVal.num 1))).1 (by decide)).2
    (by decide)

/-- C4 counterexample: a request with `months = -1` passes the
`Number(months) || 3` coercion unchanged, so renewing a non-expired
license DECREASES `expiresAt`, refuting "renewal never decreases
`expiresAt`" as stated. -/
theorem renew_negative_months_counterexample :
    isExpired sampleCustomer.expiresAt 0 = false ∧
    (renewCustomer sampleCustomer 0 (numberOr (some (JVal.num (-1))) 3)).expiresAt
      < sampleCustomer.expiresAt := by
  refine ⟨by decide, by decide⟩

/-! ## List helpers for the activation registry -/

theorem bumpLastSeen_map_deviceId (d : String) (now : Int) (l : List Activation) :
    (bumpLastSeen d now l).map (fun a => a.deviceId) = l.map (fun a => a.deviceId) := by
  induction l with
  | nil => rfl
  | cons a as ih =>
    simp only [bumpLastSeen]
    split
    · simp
    · simp [ih]

theorem bumpLastSeen_length (d : String) (now : Int) (l : List Activation) :
    (bumpLastSeen d now l).length = l.length := by
  have h := congrArg List.length (bumpLastSeen_map_deviceId d now l)
  simpa using h

theorem bumpLastSeen_countP (d e : String) (now : Int) (l : List Activation) :
    (bumpLastSeen d now l).countP (fun a => a.deviceId == e)
      = l.countP (fun a => a.deviceId == e) := by
  induction l with
  | nil => rfl
  | cons a as ih =>
    simp only [bumpLastSeen]
    split
    · simp [List.countP_cons, ih]
    · simp [List.countP_cons, ih]

theorem find?_deviceId_eq_none (l : List Activation) (d : String) :
    l.find? (fun a => a.deviceId == d) = none ↔ ∀ a ∈ l, a.deviceId ≠ d := by
  rw [List.find?_eq_none]
  simp

theorem updateFirst_of_fix (p : Customer → Bool) (f : Customer → Customer)
    (l : List Customer) (c : Customer) (hf : l.find? p = some c) (hfix : f c = c) :
    updateFirst p f l = l := by
  induction l with
  | nil => simp at hf
  | cons a as ih =>
    by_cases hpa : p a
    · rw [List.find?_cons_of_pos _ hpa] at hf
      injection hf with h
      subst h
      simp only [updateFirst, if_pos hpa, hfix]
    · rw [List.find?_cons_of_neg _ hpa] at hf
      simp only [updateFirst, if_neg hpa, ih hf]

theorem updateFirst_const (p : Customer → Bool) (g : Customer → Customer)
    (l : List Customer) (c : Customer) (hf : l.find? p = some c) :
    updateFirst p (fun _ => g c) l = updateFirst p g l := by
  induction l with
  | nil => rfl
  | cons a as ih =>
    by_cases hpa : p a
    · rw [List.find?_cons_of_pos _ hpa] at hf
      injection hf with h
      subst h
      simp only [updateFirst, if_pos hpa]
    · rw [List.find?_cons_of_neg _ hpa] at hf
      simp only [updateFirst, if_neg hpa, ih hf]

/-! ## Claim C2: banned status is sticky -/

/-- C2: on a record whose ban flag is set (`status = banned`), activate
leaves the status banned (and reports `banned`), verify leaves it banned
regardless of expiry, and renew leaves it banned; only an explicit unban
(`banned = false`) clears it, after which the status is `expired` or
`active` according to the expiry test. -/
theorem banned_is_sticky (c : Customer) (now months : Int) (d : String)
    (hban : c.status = .banned) :
    (activateCustomer c now d).1.status = .banned ∧
    (activateCustomer c now d).2 = .banned ∧
    (verifyCustomer c now d).1.status = .banned ∧
    (renewCustomer c now months).status = .banned ∧
    (banCustomer c now false).status
      = (if isExpired c.expiresAt now then Status.expired else Status.active) := by
  refine ⟨?_, ?_, ?_, ?_, ?_⟩
  · simp [activateCustomer, hban]
  · simp [activateCustomer, hban]
  · rcases hf : c.activations.find? (fun a => a.deviceId == d) with _ | a <;>
      simp [verifyCustomer, hf, hban]
  · simp [renewCustomer, hban]
  · simp [banCustomer]

/-- C2 witness: on the sample record with its ban flag set, both an
activate and a verify attempt leave the status banned. -/
theorem banned_is_sticky_witness :
    (activateCustomer { sampleCustomer with status := Status.banned } 0 "d").1.status
        = .banned ∧
    (verifyCustomer { sampleCustomer with status := Status.banned } 0 "d").1.status
        = .banned := by
  have h := banned_is_sticky { sampleCustomer with status := Status.banned } 0 0 "d" rfl
  exact ⟨h.1, h.2.2.1⟩

/-! ## Claim C8: verify never implicitly activates -/

/-- C8: verify with a device that has no Activation entry fails with
`NotActivated` and neither creates an Activation nor modifies the record
or the persisted file in any way. -/
theorem verify_never_activates :
    (∀ c now d, c.activations.find? (fun a => a.deviceId == d) = none →
      verifyCustomer c now d = (c, .notActivated)) ∧
    (∀ raw now k d c, k ≠ "" → d ≠ "" →
      (readData raw).customers.find? (fun x => x.licenseKey == k) = some c →
      c.activations.find? (fun a => a.deviceId == d) = none →
      verifyDb raw now k d = (raw, .notActivated)) := by
  have hcust : ∀ c now d, c.activations.find? (fun a => a.deviceId == d) = none →
      verifyCustomer c now d = (c, .notActivated) := by
    intro c now d hf
    simp [verifyCustomer, hf]
  refine ⟨hcust, ?_⟩
  intro raw now k d c hk hd hfind hf
  simp [verifyDb, hk, hd, hfind, hcust c now d hf]

/-- C8 witness: verifying an unknown device against a one-record store
returns `NotActivated` and leaves the store unchanged. -/
theorem verify_never_activates_witness :
    verifyDb (.ok ⟨[sampleCustomer]⟩) 0 "k" "d" = (.ok ⟨[sampleCustomer]⟩, .notActivated) :=
  verify_never_activates.2 (.ok ⟨[sampleCustomer]⟩) 0 "k" "d" sampleCustomer
    (by decide) (by decide) (by decide) (by decide)

/-! ## Claim C10: unreadable data behaves as an empty collection -/

/-- C10: when the persisted file is missing or unparseable, every
operation behaves as if the customer collection were empty: listing
returns an empty sequence, key lookups fail with `invalid`, and id
lookups fail with NotFound — none of them throws. -/
theorem empty_on_unreadable_data (raw : ReadOutcome)
    (h : raw = .fileMissing ∨ raw = .parseError) :
    listDb raw = [] ∧
    (∀ now k d, k ≠ "" → d ≠ "" → activateDb raw now k d = (raw, .invalid)) ∧
    (∀ now k d, k ≠ "" → d ≠ "" → verifyDb raw now k d = (raw, .invalid)) ∧
    (∀ now cid mv, renewDb raw now cid mv = (raw, none)) ∧
    (∀ now cid b, banDb raw now cid b = (raw, none)) := by
  have hread : readData raw = ⟨[]⟩ := by rcases h with rfl | rfl <;> rfl
  refine ⟨?_, ?_, ?_, ?_, ?_⟩
  · simp [listDb, hread]
  · intro now k d hk hd
    simp [activateDb, hread, hk, hd]
  · intro now k d hk hd
    simp [verifyDb, hread, hk, hd]
  · intro now cid mv
    simp [renewDb, hread]
  · intro now cid b
    simp [banDb, hread]

/-- C10 witness: with the data file missing, listing yields nothing and
an activate attempt fails with `invalid` without writing. -/
theorem empty_on_unreadable_data_witness :
    listDb .fileMissing = [] ∧
      activateDb .fileMissing 0 "k" "d" = (.fileMissing, .invalid) := by
  have h := empty_on_unreadable_data .fileMissing (Or.inl rfl)
  exact ⟨h.1, h.2.1 0 "k" "d" (by decide) (by decide)⟩

/-! ## Claim C7: failed transitions and the persisted file -/

/-- C7 (amended): every failing transition leaves the persisted file
exactly as it was — with the single exception of activate's Expired
failure, which persists `status = expired` on the target record (and
changes nothing else) before failing, exactly as spec §4.3 step 3
prescribes. -/
theorem failed_transitions_preserve_file :
    (∀ raw now k d, k = "" ∨ d = "" → activateDb raw now k d = (raw, .validationError)) ∧
    (∀ raw now k d, k ≠ "" → d ≠ "" →
      (readData raw).customers.find? (fun x => x.licenseKey == k) = none →
      activateDb raw now k d = (raw, .invalid)) ∧
    (∀ raw now k d c, k ≠ "" → d ≠ "" →
      (readData raw).customers.find? (fun x => x.licenseKey == k) = some c →
      c.status = .banned → activateDb raw now k d = (raw, .banned)) ∧
    (∀ raw now k d c, k ≠ "" → d ≠ "" →
      (readData raw).customers.find? (fun x => x.licenseKey == k) = some c →
      c.status ≠ .banned → isExpired c.expiresAt now = false →
      c.activations.find? (fun a => a.deviceId == d) = none →
      jsGE (c.activations.length : Int) c.maxDevices = true →
      activateDb raw now k d = (raw, .limitExceeded c.maxDevices)) ∧
    (∀ raw now k d c, k ≠ "" → d ≠ "" →
      (readData raw).customers.find? (fun x => x.licenseKey == k) = some c →
      c.status ≠ .banned → isExpired c.expiresAt now = true →
      activateDb raw now k d =
        (.ok ⟨updateFirst (fun x => x.licenseKey == k)
            (fun x => { x with status := Status.expired }) (readData raw).customers⟩,
          .expired c.expiresAt)) ∧
    (∀ raw now k d, k = "" ∨ d = "" → verifyDb raw now k d = (raw, .validationError)) ∧
    (∀ raw now k d, k ≠ "" → d ≠ "" →
      (readData raw).customers.find? (fun x => x.licenseKey == k) = none →
      verifyDb raw now k d = (raw, .invalid)) ∧
    (∀ raw now k d c, k ≠ "" → d ≠ "" →
      (readData raw).customers.find? (fun x => x.licenseKey == k) = some c →
      c.activations.find? (fun a => a.deviceId == d) = none →
      verifyDb raw now k d = (raw, .notActivated)) ∧
    (∀ raw now cid mv,
      (readData raw).customers.find? (fun x => x.id == cid) = none →
      renewDb raw now cid mv = (raw, none)) ∧
    (∀ raw now cid b,
      (readData raw).customers.find? (fun x => x.id == cid) = none →
      banDb raw now cid b = (raw, none)) ∧
    (∀ raw now name email mv dv i key, name = "" ∨ email = "" →
      issueDb raw now name email mv dv i key = (raw, none)) := by
  refine ⟨?_, ?_, ?_, ?_, ?_, ?_, ?_, ?_, ?_, ?_, ?_⟩
  · intro raw now k d h
    rcases h with h | h <;> simp [activateDb, h]
  · intro raw now k d hk hd hfind
    simp [activateDb, hk, hd, hfind]
  · intro raw now k d c hk hd hfind hban
    have hact : activateCustomer c now d = (c, .banned) := by
      simp [activateCustomer, hban]
    simp [activateDb, hk, hd, hfind, hact, activateWrites]
  · intro raw now k d c hk hd hfind hban hexp hf hlim
    have hact : activateCustomer c now d = (c, .limitExceeded c.maxDevices) := by
      simp [activateCustomer, hban, hexp, hf, hlim]
    simp [activateDb, hk, hd, hfind, hact, activateWrites]
  · intro raw now k d c hk hd hfind hban hexp
    have hact : activateCustomer c now d
        = ({ c with status := Status.expired }, .expired c.expiresAt) := by
      simp [activateCustomer, hban, hexp]
    have hconst := updateFirst_const (fun x => x.licenseKey == k)
      (fun x => { x with status := Status.expired }) (readData raw).customers c hfind
    simp only [activateDb, hk, hd, hfind, hact, activateWrites]
    simp [hk, hd, hconst]
  · intro raw now k d h
    rcases h with h | h <;> simp [verifyDb, h]
  · intro raw now k d hk hd hfind
    simp [verifyDb, hk, hd, hfind]
  · intro raw now k d c hk hd hfind hf
    have hver : verifyCustomer c now d = (c, .notActivated) := by
      simp [verifyCustomer, hf]
    simp [verifyDb, hk, hd, hfind, hver]
  · intro raw now cid mv hfind
    simp [renewDb, hfind]
  · intro raw now cid b hfind
    simp [banDb, hfind]
  · intro raw now name email mv dv i key h
    rcases h with h | h <;> simp [issueDb, h]

/-- C7 witness: an activate attempt against a banned record fails and
leaves the one-record store exactly as it was. -/
theorem failed_transitions_preserve_file_witness :
    activateDb (.ok ⟨[{ sampleCustomer with status := Status.banned }]⟩) 0 "k" "d"
      = (.ok ⟨[{ sampleCustomer with status := Status.banned }]⟩, .banned) :=
  failed_transitions_preserve_file.2.2.1
    (.ok ⟨[{ sampleCustomer with status := Status.banned }]⟩) 0 "k" "d"
    { sampleCustomer with status := Status.banned }
    (by decide) (by decide) (by decide) rfl

/-- C7 counterexample: an activate attempt on an active-but-expired
record fails with `Expired` yet REWRITES the persisted file (the record's
status becomes `expired`), refuting "a failed transition leaves the
persisted record exactly as it was" as stated for the Expired failure. -/
theorem expired_failure_writes_counterexample :
    (activateDb (.ok ⟨[{ sampleCustomer with expiresAt := 0 }]⟩) 5 "k" "d").2
        = .expired 0 ∧
    (activateDb (.ok ⟨[{ sampleCustomer with expiresAt := 0 }]⟩) 5 "k" "d").1
        ≠ .ok ⟨[{ sampleCustomer with expiresAt := 0 }]⟩ := by
  refine ⟨by decide, by decide⟩

/-! ## Claims C1 and C9: the device limit under sequences of activates -/

theorem find?_append_none {α : Type} {p : α → Bool} {l₁ l₂ : List α}
    (h : l₁.find? p = none) : (l₁ ++ l₂).find? p = l₂.find? p := by
  induction l₁ with
  | nil => rfl
  | cons a as ih =>
    by_cases hpa : p a
    · rw [List.find?_cons_of_pos _ hpa] at h
      exact absurd h (by simp)
    · rw [List.find?_cons_of_neg _ hpa] at h
      rw [List.cons_append, List.find?_cons_of_neg _ hpa, ih h]

/-- The fold invariant for any sequence of activate calls with pairwise
distinct, previously unseen device ids against one non-banned record that
stays unexpired: with `k` the remaining capacity, the first `k` calls
succeed and append their activations in order, and every later call is
rejected with `DeviceLimitExceeded` carrying `maxDevices`. -/
theorem runActs_spec (calls : List (String × Int)) (c : Customer) (N : Int)
    (hb : c.status ≠ .banned) (hmax : c.maxDevices = .num N)
    (hfresh : ∀ p ∈ calls, isExpired c.expiresAt p.2 = false)
    (hnodup : (calls.map Prod.fst).Nodup)
    (hnew : ∀ p ∈ calls, ∀ a ∈ c.activations, a.deviceId ≠ p.1) :
    (runActs c calls).2 =
      (calls.take (N - c.activations.length).toNat).map
          (fun p => ActResult.success c.expiresAt p.1 c.name)
        ++ (calls.drop (N - c.activations.length).toNat).map
          (fun _ => ActResult.limitExceeded (JVal.num N)) ∧
    (runActs c calls).1.activations =
      c.activations ++ (calls.take (N - c.activations.length).toNat).map
          (fun p => { deviceId := p.1, activatedAt := p.2, lastSeen := p.2 }) ∧
    (runActs c calls).1.expiresAt = c.expiresAt := by
  induction calls generalizing c with
  | nil => simp [runActs]
  | cons p rest ih =>
    obtain ⟨d, t⟩ := p
    have hfr : isExpired c.expiresAt t = false := hfresh (d, t) (List.mem_cons_self _ _)
    have hfindnone : c.activations.find? (fun a => a.deviceId == d) = none :=
      (find?_deviceId_eq_none _ _).mpr
        (fun a ha => hnew (d, t) (List.mem_cons_self _ _) a ha)
    have hnodup' : (rest.map Prod.fst).Nodup := by
      have hh : (d :: rest.map Prod.fst).Nodup := by simpa using hnodup
      exact (List.nodup_cons.mp hh).2
    have hdnm : d ∉ rest.map Prod.fst := by
      have hh : (d :: rest.map Prod.fst).Nodup := by simpa using hnodup
      exact (List.nodup_cons.mp hh).1
    by_cases hlim : N ≤ (c.activations.length : Int)
    · have hjs : jsGE (c.activations.length : Int) (JVal.num N) = true := by
        simp only [jsGE, jsToNumber, decide_eq_true_eq]
        exact hlim
      have hact : activateCustomer c t d = (c, .limitExceeded (JVal.num N)) := by
        simp [activateCustomer, hb, hfr, hfindnone, hmax, hjs]
      have hk0 : (N - (c.activations.length : Int)).toNat = 0 := by omega
      have ihh := ih c hb hmax
        (fun q hq => hfresh q (List.mem_cons_of_mem _ hq)) hnodup'
        (fun q hq a ha => hnew q (List.mem_cons_of_mem _ hq) a ha)
      rw [hk0] at ihh ⊢
      refine ⟨?_, ?_, ?_⟩
      · simp only [runActs, hact, List.take_zero, List.drop_zero, List.map_cons,
          List.nil_append, List.map_nil] at ihh ⊢
        rw [ihh.1]
      · simp only [runActs, hact, List.take_zero, List.map_nil, List.append_nil] at ihh ⊢
        exact ihh.2.1
      · simp only [runActs, hact] at ihh ⊢
        exact ihh.2.2
    · have hjs : jsGE (c.activations.length : Int) (JVal.num N) = false := by
        simp only [jsGE, jsToNumber, decide_eq_false_iff_not]
        omega
      have hact : activateCustomer c t d =
          ({ c with
              activations := c.activations
                ++ [{ deviceId := d, activatedAt := t, lastSeen := t }],
              status := Status.active },
            .success c.expiresAt d c.name) := by
        simp [activateCustomer, hb, hfr, hfindnone, hmax, hjs]
      have ihh := ih
        { c with
            activations := c.activations
              ++ [{ deviceId := d, activatedAt := t, lastSeen := t }],
            status := Status.active }
        (by simp) (by simpa using hmax)
        (by intro q hq; simpa using hfresh q (List.mem_cons_of_mem _ hq))
        hnodup'
        (by
          intro q hq a ha
          have ha2 : a ∈ c.activations
              ∨ a = { deviceId := d, activatedAt := t, lastSeen := t } := by
            simpa using ha
          rcases ha2 with ha' | ha'
          · exact hnew q (List.mem_cons_of_mem _ hq) a ha'
          · have had : a.deviceId = d := by rw [ha']
            rw [had]
            intro hdq
            exact hdnm (hdq ▸ List.mem_map_of_mem Prod.fst hq))
      simp only [List.length_append, List.length_cons, List.length_nil] at ihh
      have hkk : (N - (c.activations.length : Int)).toNat
          = (N - ((c.activations.length : Int) + (0 + 1))).toNat + 1 := by omega
      have hcast : ((c.activations.length + (0 + 1) : Nat) : Int)
          = (c.activations.length : Int) + (0 + 1) := by push_cast; ring
      rw [hcast] at ihh
      rw [hkk, List.take_succ_cons, List.drop_succ_cons]
      refine ⟨?_, ?_, ?_⟩
      · simp only [runActs, hact, List.map_cons]
        rw [List.cons_append]
        congr 1
        exact ihh.1
      · simp only [runActs, hact]
        rw [ihh.2.1]
        simp [List.append_assoc]
      · simp only [runActs, hact]
        exact ihh.2.2

/-- C1: on a license with `maxDevices = N` (not banned, not expired at
any of the call times, empty activation set), any sequence of `N + 1`
activates for pairwise distinct devices — i.e. any arrival order —
admits the first `N` (each appending an Activation with
`activatedAt = lastSeen = now`) and rejects the `(N+1)`-th with
`DeviceLimitExceeded` carrying `maxDevices`. -/
theorem device_limit_enforced (c : Customer) (N : Int) (calls : List (String × Int))
    (hacts : c.activations = []) (hb : c.status ≠ .banned)
    (hmax : c.maxDevices = .num N) (hN : 0 < N)
    (hlen : (calls.length : Int) = N + 1)
    (hnodup : (calls.map Prod.fst).Nodup)
    (hfresh : ∀ p ∈ calls, isExpired c.expiresAt p.2 = false) :
    (runActs c calls).2 =
      (calls.take N.toNat).map (fun p => ActResult.success c.expiresAt p.1 c.name)
        ++ [ActResult.limitExceeded (JVal.num N)] ∧
    (runActs c calls).1.activations =
      (calls.take N.toNat).map
        (fun p => { deviceId := p.1, activatedAt := p.2, lastSeen := p.2 }) := by
  have h := runActs_spec calls c N hb hmax hfresh hnodup (by simp [hacts])
  rw [hacts] at h
  simp only [List.length_nil, Nat.cast_zero, sub_zero, List.nil_append] at h
  have hlen1 : (calls.drop N.toNat).length = 1 := by
    rw [List.length_drop]
    omega
  obtain ⟨x, hx⟩ := List.length_eq_one.mp hlen1
  refine ⟨?_, h.2.1⟩
  rw [h.1, hx]
  simp

/-- C1 witness: with `maxDevices = 1` and two distinct devices, the first
activate succeeds and the second is rejected with the limit error. -/
theorem device_limit_enforced_witness :
    (runActs { sampleCustomer with maxDevices := JVal.num 1 } [("d1", 1), ("d2", 2)]).2
      = [ActResult.success sampleCustomer.expiresAt "d1" sampleCustomer.name,
          ActResult.limitExceeded (JVal.num 1)] := by
  have h := device_limit_enforced { sampleCustomer with maxDevices := JVal.num 1 } 1
    [("d1", 1), ("d2", 2)] rfl (by decide) rfl (by decide) (by decide) (by decide)
    (by decide)
  rw [h.1]
  rfl

/-- C9: any ordering of `N + K` whole activate handler executions for
distinct fresh devices against one license admits exactly `N` and
rejects `K` with `DeviceLimitExceeded`.  Each handler body is fully
synchronous (no suspension point), so under Node's run-to-completion
event loop the concurrent requests of the claim execute as exactly such
an ordering of atomic read-decide-write steps; `calls` ranges over every
ordering. -/
theorem concurrent_activates_admit_max (c : Customer) (N K : Int)
    (calls : List (String × Int))
    (hacts : c.activations = []) (hb : c.status ≠ .banned)
    (hmax : c.maxDevices = .num N) (hN : 0 < N) (hK : 1 ≤ K)
    (hlen : (calls.length : Int) = N + K)
    (hnodup : (calls.map Prod.fst).Nodup)
    (hfresh : ∀ p ∈ calls, isExpired c.expiresAt p.2 = false) :
    (((runActs c calls).2.countP isSuccessR : Nat) : Int) = N ∧
    (((runActs c calls).2.countP
        (fun r => r == ActResult.limitExceeded (JVal.num N)) : Nat) : Int) = K := by
  have h := runActs_spec calls c N hb hmax hfresh hnodup (by simp [hacts])
  rw [hacts] at h
  simp only [List.length_nil, Nat.cast_zero, sub_zero, List.nil_append] at h
  have hcnt1 : (runActs c calls).2.countP isSuccessR = min N.toNat calls.length := by
    rw [h.1, List.countP_append, List.countP_map, List.countP_map]
    have e1 : (calls.take N.toNat).countP
        (isSuccessR ∘ fun p => ActResult.success c.expiresAt p.1 c.name)
        = (calls.take N.toNat).length :=
      List.countP_eq_length.mpr (fun a _ => rfl)
    have e2 : (calls.drop N.toNat).countP
        (isSuccessR ∘ fun _ => ActResult.limitExceeded (JVal.num N)) = 0 :=
      List.countP_eq_zero.mpr (fun a _ hx => Bool.noConfusion hx)
    rw [e1, e2, List.length_take]
    omega
  have hcnt2 : (runActs c calls).2.countP
      (fun r => r == ActResult.limitExceeded (JVal.num N)) = calls.length - N.toNat := by
    rw [h.1, List.countP_append, List.countP_map, List.countP_map]
    have e3 : (calls.take N.toNat).countP
        ((fun r => r == ActResult.limitExceeded (JVal.num N))
          ∘ fun p => ActResult.success c.expiresAt p.1 c.name) = 0 :=
      List.countP_eq_zero.mpr (fun a _ hx => ActResult.noConfusion (beq_iff_eq.mp hx))
    have e4 : (calls.drop N.toNat).countP
        ((fun r => r == ActResult.limitExceeded (JVal.num N))
          ∘ fun _ => ActResult.limitExceeded (JVal.num N))
        = (calls.drop N.toNat).length :=
      List.countP_eq_length.mpr (fun a _ => beq_self_eq_true _)
    rw [e3, e4, List.length_drop]
    omega
  constructor
  · rw [hcnt1]; omega
  · rw [hcnt2]; omega

/-- C9 witness: two ordered activates against a one-device license admit
exactly one and reject one. -/
theorem concurrent_activates_admit_max_witness :
    (((runActs { sampleCustomer with maxDevices := JVal.num 1 }
        [("d1", 1), ("d2", 2)]).2.countP isSuccessR : Nat) : Int) = 1 ∧
    (((runActs { sampleCustomer with maxDevices := JVal.num 1 }
        [("d1", 1), ("d2", 2)]).2.countP
        (fun r => r == ActResult.limitExceeded (JVal.num 1)) : Nat) : Int) = 1 :=
  concurrent_activates_admit_max { sampleCustomer with maxDevices := JVal.num 1 } 1 1
    [("d1", 1), ("d2", 2)] rfl (by decide) rfl (by decide) (by decide) (by decide)
    (by decide) (by decide)

/-! ## Claim C3: idempotent re-activation -/

/-- Single-call characterisation: a fresh device on a non-banned,
unexpired record under the limit is admitted, appending its activation. -/
theorem activate_fresh (c : Customer) (now : Int) (d : String)
    (hb : c.status ≠ .banned) (he : isExpired c.expiresAt now = false)
    (hf : c.activations.find? (fun a => a.deviceId == d) = none)
    (hjs : jsGE (c.activations.length : Int) c.maxDevices = false) :
    activateCustomer c now d
      = ({ c with
            activations := c.activations
              ++ [{ deviceId := d, activatedAt := now, lastSeen := now }],
            status := Status.active },
          .success c.expiresAt d c.name) := by
  simp [activateCustomer, hb, he, hf, hjs]

/-- Single-call characterisation: a fresh device at (or beyond) the
limit is rejected without any change to the record. -/
theorem activate_limited (c : Customer) (now : Int) (d : String)
    (hb : c.status ≠ .banned) (he : isExpired c.expiresAt now = false)
    (hf : c.activations.find? (fun a => a.deviceId == d) = none)
    (hjs : jsGE (c.activations.length : Int) c.maxDevices = true) :
    activateCustomer c now d = (c, .limitExceeded c.maxDevices) := by
  simp [activateCustomer, hb, he, hf, hjs]

/-- Single-call characterisation: a device with an existing activation is
re-admitted, only bumping that entry's `lastSeen`. -/
theorem activate_existing (c : Customer) (now : Int) (d : String)
    (he : isExpired c.expiresAt now = false) (hb : c.status ≠ .banned)
    (b : Activation) (hf : c.activations.find? (fun a => a.deviceId == d) = some b) :
    activateCustomer c now d
      = ({ c with
            activations := bumpLastSeen d now c.activations,
            status := Status.active },
          .success c.expiresAt d c.name) := by
  simp [activateCustomer, hb, he, hf]

/-- C3: activating the same (license, device) pair twice on a non-banned,
non-expired record never creates a second Activation entry and never
double-counts against `maxDevices`: the device-id list and the activation
count are unchanged by the second call, at most one entry for the device
ever exists, and when the first call was admitted the second call merely
updates that entry's `lastSeen` (re-asserting `status = active`) and
succeeds again. -/
theorem idempotent_reactivation (c : Customer) (nowOne nowTwo : Int) (d : String)
    (hb : c.status ≠ .banned)
    (he₁ : isExpired c.expiresAt nowOne = false)
    (he₂ : isExpired c.expiresAt nowTwo = false)
    (hcount : c.activations.countP (fun a => a.deviceId == d) ≤ 1) :
    ((activateCustomer (activateCustomer c nowOne d).1 nowTwo d).1).activations.map
        (fun a => a.deviceId)
      = ((activateCustomer c nowOne d).1).activations.map (fun a => a.deviceId) ∧
    ((activateCustomer (activateCustomer c nowOne d).1 nowTwo d).1).activations.length
      = ((activateCustomer c nowOne d).1).activations.length ∧
    ((activateCustomer c nowOne d).1).activations.countP (fun a => a.deviceId == d) ≤ 1 ∧
    ((activateCustomer (activateCustomer c nowOne d).1 nowTwo d).1).activations.countP
        (fun a => a.deviceId == d)
      = ((activateCustomer c nowOne d).1).activations.countP (fun a => a.deviceId == d) ∧
    (isSuccessR (activateCustomer c nowOne d).2 = true →
      activateCustomer (activateCustomer c nowOne d).1 nowTwo d
        = ({ (activateCustomer c nowOne d).1 with
              activations :=
                bumpLastSeen d nowTwo ((activateCustomer c nowOne d).1).activations,
              status := Status.active },
            .success c.expiresAt d c.name)) := by
  rcases hf : c.activations.find? (fun a => a.deviceId == d) with _ | a
  · have hz : c.activations.countP (fun a => a.deviceId == d) = 0 :=
      List.countP_eq_zero.mpr (List.find?_eq_none.mp hf)
    by_cases hlim : jsGE (c.activations.length : Int) c.maxDevices = true
    · -- the device limit is already met: both calls reject, nothing changes
      have hact1 := activate_limited c nowOne d hb he₁ hf hlim
      have hc1 : (activateCustomer c nowOne d).1 = c := by rw [hact1]
      have hact2 := activate_limited c nowTwo d hb he₂ hf hlim
      rw [hc1, hact2, hact1]
      refine ⟨rfl, rfl, by exact hcount, rfl, ?_⟩
      intro hs
      exact Bool.noConfusion hs
    · -- first call admits the device and appends its activation
      have hlimf : jsGE (c.activations.length : Int) c.maxDevices = false :=
        Bool.eq_false_iff.mpr (fun hx => hlim hx)
      have hact1 := activate_fresh c nowOne d hb he₁ hf hlimf
      have hc1acts : ((activateCustomer c nowOne d).1).activations
          = c.activations
            ++ [{ deviceId := d, activatedAt := nowOne, lastSeen := nowOne }] := by
        rw [hact1]
      have hc1status : ((activateCustomer c nowOne d).1).status = Status.active := by
        rw [hact1]
      have hc1exp : ((activateCustomer c nowOne d).1).expiresAt = c.expiresAt := by
        rw [hact1]
      have hc1name : ((activateCustomer c nowOne d).1).name = c.name := by
        rw [hact1]
      have hf2 : ((activateCustomer c nowOne d).1).activations.find?
            (fun x => x.deviceId == d)
          = some ({ deviceId := d, activatedAt := nowOne, lastSeen := nowOne } :
              Activation) := by
        rw [hc1acts, find?_append_none hf]
        exact List.find?_cons_of_pos _ (by simp)
      have hact2 := activate_existing ((activateCustomer c nowOne d).1) nowTwo d
        (by rw [hc1exp]; exact he₂) (by rw [hc1status]; simp) _ hf2
      refine ⟨?_, ?_, ?_, ?_, ?_⟩
      · rw [hact2]
        exact bumpLastSeen_map_deviceId d nowTwo
          ((activateCustomer c nowOne d).1).activations
      · rw [hact2]
        exact bumpLastSeen_length d nowTwo ((activateCustomer c nowOne d).1).activations
      · rw [hc1acts, List.countP_append, hz]
        simp [List.countP_cons]
      · rw [hact2]
        exact bumpLastSeen_countP d d nowTwo ((activateCustomer c nowOne d).1).activations
      · intro hs
        rw [hact2]
        exact Prod.ext_iff.mpr ⟨rfl, by rw [hc1exp, hc1name]⟩
  · -- the device is already activated: both calls only bump lastSeen
    have had : a.deviceId = d := by
      have hpa := List.find?_some hf
      simpa using hpa
    have hmem : a ∈ c.activations := List.mem_of_find?_eq_some hf
    have hact1 := activate_existing c nowOne d he₁ hb a hf
    have hc1acts : ((activateCustomer c nowOne d).1).activations
        = bumpLastSeen d nowOne c.activations := by
      rw [hact1]
    have hc1status : ((activateCustomer c nowOne d).1).status = Status.active := by
      rw [hact1]
    have hc1exp : ((activateCustomer c nowOne d).1).expiresAt = c.expiresAt := by
      rw [hact1]
    have hc1name : ((activateCustomer c nowOne d).1).name = c.name := by
      rw [hact1]
    have hf2ne : ((activateCustomer c nowOne d).1).activations.find?
        (fun x => x.deviceId == d) ≠ none := by
      rw [hc1acts]
      intro hnone
      have hall := List.find?_eq_none.mp hnone
      have hdmem : d ∈ (bumpLastSeen d nowOne c.activations).map (fun x => x.deviceId) := by
        rw [bumpLastSeen_map_deviceId]
        exact had ▸ List.mem_map_of_mem _ hmem
      obtain ⟨x, hxmem, hxd⟩ := List.mem_map.mp hdmem
      exact hall x hxmem (by simp [hxd])
    obtain ⟨b, hb2⟩ := Option.ne_none_iff_exists'.mp hf2ne
    have hact2 := activate_existing ((activateCustomer c nowOne d).1) nowTwo d
      (by rw [hc1exp]; exact he₂) (by rw [hc1status]; simp) b hb2
    refine ⟨?_, ?_, ?_, ?_, ?_⟩
    · rw [hact2]
      exact bumpLastSeen_map_deviceId d nowTwo
        ((activateCustomer c nowOne d).1).activations
    · rw [hact2]
      exact bumpLastSeen_length d nowTwo ((activateCustomer c nowOne d).1).activations
    · rw [hc1acts, bumpLastSeen_countP]
      exact hcount
    · rw [hact2]
      exact bumpLastSeen_countP d d nowTwo ((activateCustomer c nowOne d).1).activations
    · intro hs
      rw [hact2]
      exact Prod.ext_iff.mpr ⟨rfl, by rw [hc1exp, hc1name]⟩

/-- C3 witness: activating the sample license twice for the same device
keeps a single activation entry and an unchanged count. -/
theorem idempotent_reactivation_witness :
    ((activateCustomer (activateCustomer sampleCustomer 1 "d").1 2 "d").1).activations.length
      = ((activateCustomer sampleCustomer 1 "d").1).activations.length ∧
    ((activateCustomer (activateCustomer sampleCustomer 1 "d").1 2 "d").1).activations.countP
        (fun a => a.deviceId == "d")
      = ((activateCustomer sampleCustomer 1 "d").1).activations.countP
        (fun a => a.deviceId == "d") := by
  have h := idempotent_reactivation sampleCustomer 1 2 "d" (by decide) (by decide)
    (by decide) (by decide)
  exact ⟨h.2.1, h.2.2.2.1⟩

/-! ## Claim C6: issue-time defaults and coercion -/

/-- C6 (amended): on issue, `months` is coerced with `Number(months) || 6`
(so absent, non-numeric and zero all fall back to 6, and any other
numeric value is used), while `maxDevices` defaults to 2 only when the
field is absent and is otherwise stored exactly as supplied, without any
numeric coercion — so the stored `maxDevices` need not be a positive
integer. -/
theorem issue_defaults (raw : ReadOutcome) (now : Int) (name email : String)
    (mv dv : Option JVal) (i key : String) (hn : name ≠ "") (he : email ≠ "") :
    issueDb raw now name email mv dv i key
        = (.ok ⟨(readData raw).customers ++ [issueCustomer now name email mv dv i key]⟩,
            some (issueCustomer now name email mv dv i key)) ∧
    (issueCustomer now name email mv dv i key).maxDevices = dv.getD (.num 2) ∧
    (issueCustomer now name email mv dv i key).expiresAt = addMonths now (numberOr mv 6) ∧
    (issueCustomer now name email mv dv i key).status = .active ∧
    (issueCustomer now name email mv dv i key).activations = [] ∧
    (mv = none → (issueCustomer now name email mv dv i key).expiresAt = addMonths now 6) ∧
    (∀ w, mv = some w → jsToNumber w = none →
      (issueCustomer now name email mv dv i key).expiresAt = addMonths now 6) ∧
    (∀ n, mv = some (JVal.num n) → n ≠ 0 →
      (issueCustomer now name email mv dv i key).expiresAt = addMonths now n) := by
  refine ⟨?_, rfl, rfl, rfl, rfl, ?_, ?_, ?_⟩
  · simp [issueDb, hn, he]
  · rintro rfl
    rfl
  · rintro w rfl hw
    simp [issueCustomer, numberOr, hw]
  · rintro n rfl hn0
    simp [issueCustomer, numberOr, jsToNumber, hn0]

/-- C6 witness: issuing with both optional fields absent stores
`maxDevices = 2` and a 6-month expiry. -/
theorem issue_defaults_witness :
    (issueCustomer 0 "A" "a@x" none none "i" "k").maxDevices = JVal.num 2 ∧
    (issueCustomer 0 "A" "a@x" none none "i" "k").expiresAt = addMonths 0 6 := by
  have h := issue_defaults .fileMissing 0 "A" "a@x" none none "i" "k"
    (by decide) (by decide)
  exact ⟨h.2.1, h.2.2.2.2.2.1 rfl⟩

/-- C6 counterexample: supplying `maxDevices = 0` stores `0` verbatim —
not the coerced positive default the claim asserts — because the source
never applies `Number(...) || 2` to `maxDevices`. -/
theorem issue_maxdevices_uncoerced_counterexample :
    (issueCustomer 0 "A" "a@x" none (some (JVal.num 0)) "i" "k").maxDevices
      ≠ specMaxDevices (some (JVal.num 0)) := by
  decide

end LicenseServer
